import Mathlib

/-!
Verification of the message-lifecycle and fanout core of a real-time chat
service.  The definitions below are a shallow embedding of the TypeScript
source: message documents and their status fields, the receipt operations
of `ImprovedMessageStatusService` (`markAsDelivered` / `markAsRead`), the
generic `updateMessageStatus` / `retryMessage` of `MessageStatusService`,
the repository bulk operation `markAllMessagesAsRead`, the reconnect
sweeper `AutoDeliveryService.markPendingMessagesAsDelivered`, the socket
fanout helpers `emitSocketEvent` / `emitToUser`, the connect/disconnect
presence handlers of `initSocketIo`, and the conversation-ledger update
`ConversationService.updateConversationOnNewMessage`.

Identifiers (Mongo ObjectIds in the source) are modelled as naturals,
timestamps as natural milliseconds.  Mongo's `$addToSet` on an array is
append-if-absent.
-/

namespace ChatApp

abbrev UserId := Nat
abbrev MessageId := Nat
abbrev ChatId := Nat

/-- `MessageStatus` enum from `database/model/Message`. -/
inductive MessageStatus where
  | pending
  | sending
  | sent
  | delivered
  | read
  | failed
deriving DecidableEq, Repr

/-- Message document (fields used by the status subsystem). -/
structure Message where
  sender : UserId
  chat : ChatId
  status : MessageStatus
  readBy : List UserId
  deliveredTo : List UserId
  sentAt : Option Nat
  deliveredAt : Option Nat
  readAt : Option Nat
  retryCount : Nat
  failureReason : Option String
  createdAt : Nat
  updatedAt : Nat
deriving DecidableEq, Repr

/-- Mongo `$addToSet`: append the element when it is not yet in the array. -/
def addToSet (l : List UserId) (u : UserId) : List UserId :=
  if u ∈ l then l else l ++ [u]

/-- `messageRepo.createMessage`: a fresh message starts `pending` with empty
receipt arrays and `retryCount` 0. -/
def createMessage (sender : UserId) (chat : ChatId) (t : Nat) : Message :=
  { sender := sender
    chat := chat
    status := .pending
    readBy := []
    deliveredTo := []
    sentAt := none
    deliveredAt := none
    readAt := none
    retryCount := 0
    failureReason := none
    createdAt := t
    updatedAt := t }

/-- `ImprovedMessageStatusService.markAsDelivered` (the delivery-receipt
operation wired to the `MESSAGE_DELIVERED_EVENT` socket handler), effect on
the message document.  Early returns: the sender's own receipt and a
duplicate receipt leave the document untouched.  Otherwise the user is
added to `deliveredTo` via `$addToSet`, `deliveredAt` and `updatedAt` are
set to the current time, and the status is advanced to `delivered` only
from `pending`/`sending`. -/
def markAsDelivered (t : Nat) (userId : UserId) (m : Message) : Message :=
  if m.sender = userId then m
  else if userId ∈ m.deliveredTo then m
  else
    let m1 := { m with
      deliveredTo := addToSet m.deliveredTo userId
      deliveredAt := some t
      updatedAt := t }
    if m.status = .pending ∨ m.status = .sending then
      { m1 with status := .delivered }
    else m1

/-- `ImprovedMessageStatusService.markAsRead` (the read-receipt operation
wired to the `MESSAGE_READ_EVENT` socket handler).  Early returns: sender's
own receipt and a reader already in `readBy` leave the document untouched.
Otherwise `$addToSet` adds the reader to `readBy` AND to `deliveredTo`,
and `$set` writes `readAt`, `updatedAt`, `deliveredAt` and forces the
status to `read`. -/
def markAsRead (t : Nat) (userId : UserId) (m : Message) : Message :=
  if m.sender = userId then m
  else if userId ∈ m.readBy then m
  else
    { m with
      readBy := addToSet m.readBy userId
      deliveredTo := addToSet m.deliveredTo userId
      readAt := some t
      updatedAt := t
      status := .read
      deliveredAt := some t }

/-- `MessageStatusService.updateMessageStatus`: sets the status plus the
status-specific side fields (`sentAt`/`deliveredAt`/`readAt`,
`failureReason` and `retryCount` increment for `failed`, `$addToSet` of the
optional user into the receipt array for `delivered`/`read`). -/
def updateMessageStatus (t : Nat) (newStatus : MessageStatus)
    (userId : Option UserId) (failureReason : Option String)
    (m : Message) : Message :=
  let m1 :=
    match newStatus, userId with
    | .delivered, some u => { m with deliveredTo := addToSet m.deliveredTo u }
    | .read, some u => { m with readBy := addToSet m.readBy u }
    | _, _ => m
  let m2 := { m1 with status := newStatus, updatedAt := t }
  match newStatus with
  | .sent => { m2 with sentAt := some t }
  | .delivered => { m2 with deliveredAt := some t }
  | .read => { m2 with readAt := some t }
  | .failed => { m2 with failureReason := failureReason,
                         retryCount := m.retryCount + 1 }
  | _ => m2

/-- `MessageStatusService.retryMessage`: accepted only when the current
status is `failed`; resets the status to `pending` via
`updateMessageStatus`.  Returns the updated message and the success flag. -/
def retryMessage (t : Nat) (m : Message) : Message × Bool :=
  if m.status = .failed then
    (updateMessageStatus t .pending none none m, true)
  else (m, false)

/-- Per-message effect of `messageRepo.markAllMessagesAsRead`'s
`updateMany`: messages of the conversation authored by someone else and not
yet read by the user get the user `$addToSet`-ed into `readBy` (the
pre-update middleware also refreshes `updatedAt`); nothing else changes. -/
def markAllReadOne (t : Nat) (userId : UserId) (m : Message) : Message :=
  if m.sender ≠ userId ∧ userId ∉ m.readBy then
    { m with readBy := addToSet m.readBy userId, updatedAt := t }
  else m

/-- The operations of the status subsystem, for reasoning about operation
sequences on a single message. -/
inductive Op where
  | send : Op
  | recordFailure : String → Op
  | retry : Op
  | applyDelivery : UserId → Op
  | applyRead : UserId → Op
  | markAllRead : UserId → Op
deriving DecidableEq, Repr

/-- Dispatch of one operation onto a message document, exactly as the
wired code paths do: `send` is the controller's unconditional
`updateMessageStatus SENT` after persistence, `recordFailure` the
`updateMessageStatus FAILED` path, `retry` is `retryMessage`, the receipt
operations are the `ImprovedMessageStatusService` ones and `markAllRead`
the repository `updateMany` effect. -/
def applyOp (t : Nat) (op : Op) (m : Message) : Message :=
  match op with
  | .send => updateMessageStatus t .sent none none m
  | .recordFailure r => updateMessageStatus t .failed none (some r) m
  | .retry => (retryMessage t m).1
  | .applyDelivery u => markAsDelivered t u m
  | .applyRead u => markAsRead t u m
  | .markAllRead u => markAllReadOne t u m

/-- A timed operation sequence applied left to right. -/
def applyOps (ops : List (Nat × Op)) (m : Message) : Message :=
  ops.foldl (fun acc p => applyOp p.1 p.2 acc) m

/-- The receipt operations (`applyDelivery`/`applyRead`). -/
def Op.isReceipt : Op → Bool
  | .applyDelivery _ => true
  | .applyRead _ => true
  | _ => false

/-! ### Message store -/

/-- The message store: a document collection keyed by message id. -/
abbrev Store := List (MessageId × Message)

/-- `MessageModel.findById`. -/
def findById (s : Store) (mid : MessageId) : Option Message :=
  (s.find? (fun p => p.1 = mid)).map (·.2)

/-- `findByIdAndUpdate`: apply an update to the document with the given id
(other documents untouched). -/
def updateById (s : Store) (mid : MessageId) (f : Message → Message) : Store :=
  s.map (fun p => if p.1 = mid then (p.1, f p.2) else p)

/-- How a receipt handler resolved: `notFoundLogged` is the early return
with only a "not found" log line, `skipped` the self/duplicate early
return, `applied` a performed update, `errorRaised` an exception escaping
to the transport (the handlers' catch-all means this never happens). -/
inductive ReceiptResult where
  | notFoundLogged
  | skipped
  | applied
  | errorRaised
deriving DecidableEq, Repr

/-- Store-level `ImprovedMessageStatusService.markAsDelivered`: resolves
the message id first; an unknown id produces only a log line and leaves
the store untouched, it is never surfaced as an error. -/
def storeMarkAsDelivered (t : Nat) (mid : MessageId) (userId : UserId)
    (s : Store) : Store × ReceiptResult :=
  match findById s mid with
  | none => (s, .notFoundLogged)
  | some m =>
    if m.sender = userId ∨ userId ∈ m.deliveredTo then (s, .skipped)
    else (updateById s mid (markAsDelivered t userId), .applied)

/-- Store-level `ImprovedMessageStatusService.markAsRead`, same shape. -/
def storeMarkAsRead (t : Nat) (mid : MessageId) (userId : UserId)
    (s : Store) : Store × ReceiptResult :=
  match findById s mid with
  | none => (s, .notFoundLogged)
  | some m =>
    if m.sender = userId ∨ userId ∈ m.readBy then (s, .skipped)
    else (updateById s mid (markAsRead t userId), .applied)

/-- Selection filter of `messageRepo.markAllMessagesAsRead`'s `updateMany`:
message of the conversation, authored by someone other than the reader,
not yet containing the reader in `readBy`. -/
def matchesUnread (chatId : ChatId) (userId : UserId) (m : Message) : Bool :=
  m.chat = chatId && m.sender ≠ userId && userId ∉ m.readBy

/-- `messageRepo.markAllMessagesAsRead`: `updateMany` with the unread
filter and `$addToSet readBy`; returns the new store and the
`modifiedCount`. -/
def markAllMessagesAsRead (t : Nat) (chatId : ChatId) (userId : UserId)
    (s : Store) : Store × Nat :=
  ( s.map (fun p =>
      if matchesUnread chatId userId p.2 then (p.1, markAllReadOne t userId p.2) else p),
    (s.filter (fun p => matchesUnread chatId userId p.2)).length )

/-! ### Auto-delivery sweeper -/

/-- 24-hour recency window of `markPendingMessagesAsDelivered`, in ms. -/
def sweepWindow : Nat := 24 * 60 * 60 * 1000

/-- Batch bound (`.limit(50)`) of `markPendingMessagesAsDelivered`. -/
def sweepLimit : Nat := 50

/-- The sweeper's `MessageModel.find` filter: message in one of the user's
chats, authored by someone else, not yet delivered to the user, status
`sent` or `pending`, created within the last 24 hours. -/
def sweepFilter (now : Nat) (userId : UserId) (userChats : List ChatId)
    (p : MessageId × Message) : Bool :=
  p.2.chat ∈ userChats && p.2.sender ≠ userId && userId ∉ p.2.deliveredTo
    && (p.2.status = MessageStatus.sent || p.2.status = MessageStatus.pending)
    && now - sweepWindow ≤ p.2.createdAt

/-- The ids the sweeper will process (filter, then batch bound). -/
def sweepTargets (now : Nat) (userId : UserId) (userChats : List ChatId)
    (s : Store) : List MessageId :=
  ((s.filter (sweepFilter now userId userChats)).map (·.1)).take sweepLimit

/-- One sweeper step: `ImprovedMessageStatusService.markAsDelivered` on one
target id; when the update is applied, a `message-status-update` event
addressed to the message's sender is emitted (`emitToUser`). -/
def sweepStep (now : Nat) (userId : UserId)
    (acc : Store × List (MessageId × UserId)) (mid : MessageId) :
    Store × List (MessageId × UserId) :=
  match findById acc.1 mid with
  | none => acc
  | some m =>
    let r := storeMarkAsDelivered now mid userId acc.1
    if r.2 = .applied then (r.1, acc.2 ++ [(mid, m.sender)]) else (r.1, acc.2)

/-- `AutoDeliveryService.markPendingMessagesAsDelivered`: the reconnect
sweeper.  Returns the updated store and the list of status-update
emissions `(messageId, addressee)` directed at each updated message's
sender. -/
def markPendingMessagesAsDelivered (now : Nat) (userId : UserId)
    (userChats : List ChatId) (s : Store) :
    Store × List (MessageId × UserId) :=
  (sweepTargets now userId userChats s).foldl (sweepStep now userId) (s, [])

/-! ### Sockets, presence, fanout -/

/-- A live socket connection and its authenticated owner
(`socket.user._id`). -/
structure SocketConn where
  sockId : Nat
  userId : UserId
deriving DecidableEq, Repr

/-- The socket.io server state visible to the fanout helpers:
`io.sockets.sockets` and `io.adapter.rooms`. -/
structure IoState where
  sockets : List SocketConn
  rooms : List (Nat × List Nat)
deriving DecidableEq, Repr

/-- Socket ids subscribed to a room (`io.adapter.rooms.get(roomId)`). -/
def roomMembers (io : IoState) (roomId : Nat) : List Nat :=
  ((io.rooms.find? (fun p => p.1 = roomId)).map (·.2)).getD []

/-- `emitSocketEvent`: when the room has at least one subscribed client the
event goes to exactly those sockets (`io.in(roomId).emit`); when the room
is empty the code iterates all connected sockets and emits directly to
every socket whose OWNING USER ID equals the room id string.  Returns the
socket ids the event is emitted to. -/
def emitSocketEvent (io : IoState) (roomId : Nat) : List Nat :=
  let members := roomMembers io roomId
  if members.length = 0 then
    (io.sockets.filter (fun s => s.userId = roomId)).map (·.sockId)
  else members

/-- `emitToUser`: emit to every live socket owned by the user; a miss
(no such socket) only logs a warning. -/
def emitToUser (io : IoState) (userId : UserId) : List Nat :=
  (io.sockets.filter (fun s => s.userId = userId)).map (·.sockId)

/-- Write one entry of a keyed map held as an association list (used for
the user documents' `status` field and for the conversation's
`unreadCount` map). -/
def setEntry {β : Type} (l : List (Nat × β)) (u : Nat) (b : β) :
    List (Nat × β) :=
  if l.any (fun p => p.1 = u) then
    l.map (fun p => if p.1 = u then (p.1, b) else p)
  else l ++ [(u, b)]

/-- Read one entry of a keyed map, with a default for a missing key. -/
def getEntry {β : Type} (dflt : β) (l : List (Nat × β)) (u : Nat) : β :=
  ((l.find? (fun p => p.1 = u)).map (·.2)).getD dflt

/-- Presence state: the live connections plus the persisted per-user
`status` boolean of the user documents. -/
structure PresenceState where
  conns : List SocketConn
  onlineStatus : List (UserId × Bool)
deriving DecidableEq, Repr

/-- Write the `status` field of one user document
(`userRepo.findByIdAndUpdate`). -/
def setStatus (l : List (UserId × Bool)) (u : UserId) (b : Bool) :
    List (UserId × Bool) :=
  setEntry l u b

/-- `isOnline`: the persisted `status` boolean reported for a user. -/
def isOnline (st : PresenceState) (u : UserId) : Bool :=
  getEntry false st.onlineStatus u

/-- Connection handler of `initSocketIo`: registers the socket and sets the
user document's `status` to `true`. -/
def connectUser (u : UserId) (sid : Nat) (st : PresenceState) : PresenceState :=
  { conns := st.conns ++ [⟨sid, u⟩]
    onlineStatus := setStatus st.onlineStatus u true }

/-- Disconnect handler of `initSocketIo`: on ANY disconnect of an
authenticated socket the user document's `status` is set to `false`
unconditionally — there is no check for other live connections of the same
user. -/
def disconnectUser (sid : Nat) (st : PresenceState) : PresenceState :=
  match st.conns.find? (fun c => c.sockId = sid) with
  | none => st
  | some c =>
      { conns := st.conns.filter (fun c' => c'.sockId ≠ sid)
        onlineStatus := setStatus st.onlineStatus c.userId false }

/-! ### Conversation ledger -/

/-- Conversation document fields used by the unread-counter update. -/
structure ChatDoc where
  participants : List UserId
  unreadCount : List (UserId × Nat)
deriving DecidableEq, Repr

/-- `unreadCount.get(k) || 0`. -/
def getCount (l : List (UserId × Nat)) (u : UserId) : Nat :=
  getEntry 0 l u

/-- `unreadCount.set(k, v)`. -/
def setCount (l : List (UserId × Nat)) (u : UserId) (n : Nat) :
    List (UserId × Nat) :=
  setEntry l u n

/-- Unread-counter part of
`ConversationService.updateConversationOnNewMessage`: for each participant,
the sender's counter is reset to 0 and every other participant's counter is
incremented by one. -/
def updateConversationOnNewMessage (senderId : UserId) (c : ChatDoc) : ChatDoc :=
  { c with
    unreadCount := c.participants.foldl
      (fun acc p =>
        if p = senderId then setCount acc p 0
        else setCount acc p (getCount acc p + 1))
      c.unreadCount }

/-! ### Helper lemmas -/

theorem mem_addToSet {l : List UserId} {u v : UserId} :
    v ∈ addToSet l u ↔ v ∈ l ∨ v = u := by
  unfold addToSet
  split_ifs with h
  · exact ⟨Or.inl, fun hv => by rcases hv with hv | rfl <;> [exact hv; exact h]⟩
  · simp [List.mem_append]

theorem count_addToSet_self {l : List UserId} {u : UserId} (h : l.count u ≤ 1) :
    (addToSet l u).count u = 1 := by
  unfold addToSet
  split_ifs with hm
  · exact le_antisymm h (List.count_pos_iff.mpr hm)
  · have h0 : l.count u = 0 := List.count_eq_zero_of_not_mem hm
    simp [List.count_append, h0]

theorem markAsRead_of_sender {m : Message} {u : UserId} (h : m.sender = u)
    (t : Nat) : markAsRead t u m = m := by
  unfold markAsRead
  simp [h]

theorem markAsRead_of_mem {m : Message} {u : UserId} (h : u ∈ m.readBy)
    (t : Nat) : markAsRead t u m = m := by
  unfold markAsRead
  split_ifs <;> simp_all

theorem markAsRead_of_not_mem {m : Message} {u : UserId} (h1 : u ≠ m.sender)
    (h2 : u ∉ m.readBy) (t : Nat) :
    markAsRead t u m =
      { m with
        readBy := addToSet m.readBy u
        deliveredTo := addToSet m.deliveredTo u
        readAt := some t
        updatedAt := t
        status := .read
        deliveredAt := some t } := by
  unfold markAsRead
  rw [if_neg (fun hs => h1 hs.symm), if_neg h2]

theorem mem_readBy_markAsRead {m : Message} {u : UserId} (h : u ≠ m.sender)
    (t : Nat) : u ∈ (markAsRead t u m).readBy := by
  by_cases h2 : u ∈ m.readBy
  · rw [markAsRead_of_mem h2]; exact h2
  · rw [markAsRead_of_not_mem h h2]
    simp [mem_addToSet]

theorem readBy_markAsDelivered (t : Nat) (u : UserId) (m : Message) :
    (markAsDelivered t u m).readBy = m.readBy := by
  unfold markAsDelivered
  split_ifs <;> rfl

theorem deliveredTo_subset_markAsDelivered (t : Nat) (u : UserId) (m : Message) :
    ∀ v ∈ m.deliveredTo, v ∈ (markAsDelivered t u m).deliveredTo := by
  unfold markAsDelivered
  split_ifs <;> intro v hv <;> simp_all [mem_addToSet]

/-- The receipt operations preserve the `readBy ⊆ deliveredTo` invariant. -/
theorem receipt_step_subset {m : Message}
    (h : ∀ v ∈ m.readBy, v ∈ m.deliveredTo) (t : Nat) {op : Op}
    (hop : op.isReceipt = true) :
    ∀ v ∈ (applyOp t op m).readBy, v ∈ (applyOp t op m).deliveredTo := by
  cases op with
  | applyDelivery u =>
    intro v hv
    rw [applyOp, readBy_markAsDelivered] at hv
    exact deliveredTo_subset_markAsDelivered t u m v (h v hv)
  | applyRead u =>
    intro v hv
    rw [applyOp] at hv ⊢
    by_cases h1 : m.sender = u
    · rw [markAsRead_of_sender h1] at hv ⊢; exact h v hv
    · by_cases h2 : u ∈ m.readBy
      · rw [markAsRead_of_mem h2] at hv ⊢; exact h v hv
      · rw [markAsRead_of_not_mem (Ne.symm h1) h2] at hv ⊢
        simp only [mem_addToSet] at hv ⊢
        rcases hv with hv | rfl
        · exact Or.inl (h v hv)
        · exact Or.inr rfl
  | send => simp [Op.isReceipt] at hop
  | recordFailure r => simp [Op.isReceipt] at hop
  | retry => simp [Op.isReceipt] at hop
  | markAllRead u => simp [Op.isReceipt] at hop

theorem applyOps_subset {ops : List (Nat × Op)}
    (hops : ∀ p ∈ ops, (p.2).isReceipt = true) {m : Message}
    (h : ∀ v ∈ m.readBy, v ∈ m.deliveredTo) :
    ∀ v ∈ (applyOps ops m).readBy, v ∈ (applyOps ops m).deliveredTo := by
  induction ops generalizing m with
  | nil => exact h
  | cons p rest ih =>
    have hstep := receipt_step_subset h p.1 (hops p (by simp))
    exact ih (fun q hq => hops q (by simp [hq])) hstep

/-! ### Claims -/

/-- C1: starting from a freshly created message (empty receipt arrays),
after any sequence of `applyDelivery`/`applyRead` operations `readBy` is a
subset of `deliveredTo`; and every `applyRead` that inserts the reader into
`readBy` also inserts the reader into `deliveredTo`. -/
theorem readBy_subset_deliveredTo (sender chat t0 : Nat)
    (ops : List (Nat × Op)) (hops : ∀ p ∈ ops, (p.2).isReceipt = true) :
    (∀ v ∈ (applyOps ops (createMessage sender chat t0)).readBy,
        v ∈ (applyOps ops (createMessage sender chat t0)).deliveredTo) ∧
    (∀ (m : Message) (u t : Nat), u ∉ m.readBy →
        u ∈ (markAsRead t u m).readBy →
        u ∈ (markAsRead t u m).deliveredTo) := by
  constructor
  · exact applyOps_subset hops (by simp [createMessage])
  · intro m u t hnot hmem
    by_cases h1 : m.sender = u
    · rw [markAsRead_of_sender h1] at hmem
      exact absurd hmem hnot
    · rw [markAsRead_of_not_mem (Ne.symm h1) hnot] at hmem ⊢
      simp [mem_addToSet]

/-- C1 witness: a concrete delivery+read sequence on a fresh message — the
two readers (users 3 and 2) are both in `deliveredTo`. -/
theorem readBy_subset_deliveredTo_witness :
    3 ∈ (applyOps [(1, .applyDelivery 2), (2, .applyRead 3), (3, .applyRead 2)]
          (createMessage 1 10 0)).deliveredTo ∧
    2 ∈ (applyOps [(1, .applyDelivery 2), (2, .applyRead 3), (3, .applyRead 2)]
          (createMessage 1 10 0)).deliveredTo :=
  ⟨(readBy_subset_deliveredTo 1 10 0
      [(1, .applyDelivery 2), (2, .applyRead 3), (3, .applyRead 2)]
      (by decide)).1 3 (by decide),
   (readBy_subset_deliveredTo 1 10 0
      [(1, .applyDelivery 2), (2, .applyRead 3), (3, .applyRead 2)]
      (by decide)).1 2 (by decide)⟩

/-- Repeated `applyRead` of the same reader, at the given receipt times. -/
def applyReadMany (ts : List Nat) (u : UserId) (m : Message) : Message :=
  ts.foldl (fun acc t => markAsRead t u acc) m

theorem applyReadMany_of_mem {m : Message} {u : UserId} (h : u ∈ m.readBy)
    (ts : List Nat) : applyReadMany ts u m = m := by
  induction ts with
  | nil => rfl
  | cons t rest ih =>
    show applyReadMany rest u (markAsRead t u m) = m
    rw [markAsRead_of_mem h, ih]

theorem count_readBy_markAsRead {m : Message} {u : UserId}
    (hs : u ≠ m.sender) (h1 : m.readBy.count u ≤ 1) (t : Nat) :
    (markAsRead t u m).readBy.count u = 1 := by
  by_cases h2 : u ∈ m.readBy
  · rw [markAsRead_of_mem h2]
    exact le_antisymm h1 (List.count_pos_iff.mpr h2)
  · rw [markAsRead_of_not_mem hs h2]
    exact count_addToSet_self h1

theorem count_deliveredTo_markAsRead {m : Message} {u : UserId}
    (hs : u ≠ m.sender) (h2 : m.deliveredTo.count u ≤ 1)
    (hinv : u ∈ m.readBy → u ∈ m.deliveredTo) (t : Nat) :
    (markAsRead t u m).deliveredTo.count u = 1 := by
  by_cases hr : u ∈ m.readBy
  · rw [markAsRead_of_mem hr]
    exact le_antisymm h2 (List.count_pos_iff.mpr (hinv hr))
  · rw [markAsRead_of_not_mem hs hr]
    exact count_addToSet_self h2

/-- C2: for a reader distinct from the sender, any positive number of
`applyRead` calls leaves the reader exactly once in `readBy` and exactly
once in `deliveredTo`, and every further call is a no-op (the reader is
already in `readBy`).  The count hypotheses say the receipt arrays hold
the reader at most once initially (always true of reachable documents,
which are built with `$addToSet`), and `hinv` is the `readBy ⊆ deliveredTo`
design invariant. -/
theorem applyRead_idempotent (m : Message) (u : UserId) (ts : List Nat)
    (hts : ts ≠ []) (hs : u ≠ m.sender)
    (h1 : m.readBy.count u ≤ 1) (h2 : m.deliveredTo.count u ≤ 1)
    (hinv : u ∈ m.readBy → u ∈ m.deliveredTo) :
    (applyReadMany ts u m).readBy.count u = 1 ∧
    (applyReadMany ts u m).deliveredTo.count u = 1 ∧
    ∀ t', markAsRead t' u (applyReadMany ts u m) = applyReadMany ts u m := by
  cases ts with
  | nil => exact absurd rfl hts
  | cons t rest =>
    have hone : applyReadMany (t :: rest) u m = markAsRead t u m := by
      show applyReadMany rest u (markAsRead t u m) = markAsRead t u m
      exact applyReadMany_of_mem (mem_readBy_markAsRead hs t) rest
    rw [hone]
    refine ⟨count_readBy_markAsRead hs h1 t,
            count_deliveredTo_markAsRead hs h2 hinv t, fun t' => ?_⟩
    exact markAsRead_of_mem (mem_readBy_markAsRead hs t) t'

/-- C2 witness: three reads by user 2 of a fresh message from user 1. -/
theorem applyRead_idempotent_witness :
    (applyReadMany [5, 6, 7] 2 (createMessage 1 10 0)).readBy.count 2 = 1 ∧
    (applyReadMany [5, 6, 7] 2 (createMessage 1 10 0)).deliveredTo.count 2 = 1 ∧
    ∀ t', markAsRead t' 2 (applyReadMany [5, 6, 7] 2 (createMessage 1 10 0)) =
      applyReadMany [5, 6, 7] 2 (createMessage 1 10 0) :=
  applyRead_idempotent (createMessage 1 10 0) 2 [5, 6, 7]
    (by decide) (by decide) (by decide) (by decide) (by decide)

/-- A message that has already been delivered once: user 2 received it at
time 5. -/
def deliveredOnceMsg : Message :=
  { createMessage 1 10 0 with
    status := .delivered
    deliveredTo := [2]
    deliveredAt := some 5 }

/-- C3 counterexample: `markAsDelivered` does NOT set `deliveredAt` only
when it is unset — a delivery receipt from a further recipient overwrites
an already-set `deliveredAt` (the code `$set`s `deliveredAt: new Date()`
unconditionally on every effective delivery). -/
theorem markAsDelivered_overwrites_deliveredAt :
    deliveredOnceMsg.deliveredAt = some 5 ∧
    (markAsDelivered 9 3 deliveredOnceMsg).deliveredAt = some 9 := by
  decide

/-- C3 amended: `applyDelivery(m,u)` is a full no-op when `u` is the sender
or already in `deliveredTo`; otherwise it appends `u` to `deliveredTo`,
overwrites `deliveredAt` with the current time on EVERY effective delivery
(not only the first), leaves the read fields, `sentAt` and `retryCount`
unchanged, and advances the status to `delivered` exactly when the current
status is `pending` or `sending`, leaving it unchanged otherwise. -/
theorem markAsDelivered_spec (m : Message) (u t : Nat) :
    (m.sender = u ∨ u ∈ m.deliveredTo → markAsDelivered t u m = m) ∧
    (m.sender ≠ u → u ∉ m.deliveredTo →
      (markAsDelivered t u m).deliveredTo = m.deliveredTo ++ [u] ∧
      (markAsDelivered t u m).deliveredAt = some t ∧
      (markAsDelivered t u m).readBy = m.readBy ∧
      (markAsDelivered t u m).readAt = m.readAt ∧
      (markAsDelivered t u m).sentAt = m.sentAt ∧
      (markAsDelivered t u m).retryCount = m.retryCount ∧
      (markAsDelivered t u m).status =
        (if m.status = .pending ∨ m.status = .sending then .delivered
         else m.status)) := by
  constructor
  · intro h
    unfold markAsDelivered
    by_cases hs : m.sender = u
    · rw [if_pos hs]
    · rw [if_neg hs, if_pos (h.resolve_left hs)]
  · intro hs hmem
    unfold markAsDelivered
    rw [if_neg hs, if_neg hmem]
    unfold addToSet
    rw [if_neg hmem]
    split_ifs with hst <;> simp

/-- C3 witness: both branches of the amended spec at concrete inputs — the
sender's own receipt is a no-op, and a new recipient is appended. -/
theorem markAsDelivered_spec_witness :
    markAsDelivered 9 1 deliveredOnceMsg = deliveredOnceMsg ∧
    (markAsDelivered 9 3 deliveredOnceMsg).deliveredTo = [2, 3] ∧
    (markAsDelivered 9 3 deliveredOnceMsg).status = .delivered := by
  refine ⟨(markAsDelivered_spec deliveredOnceMsg 1 9).1 (Or.inl rfl), ?_, ?_⟩
  · exact ((markAsDelivered_spec deliveredOnceMsg 3 9).2
      (by decide) (by decide)).1
  · have h := ((markAsDelivered_spec deliveredOnceMsg 3 9).2
      (by decide) (by decide)).2.2.2.2.2.2
    simpa [deliveredOnceMsg, createMessage] using h

/-- The transition graph claimed by the spec (§4.1): the chain
`pending → sending → sent → delivered → read`, `failed` reachable from
`sending`/`sent`, and `failed → pending` the only backward edge. -/
def specGraphStep : MessageStatus → MessageStatus → Bool
  | .pending, .sending => true
  | .sending, .sent => true
  | .sent, .delivered => true
  | .delivered, .read => true
  | .sending, .failed => true
  | .sent, .failed => true
  | .failed, .pending => true
  | _, _ => false

/-- C4 counterexample: statuses do not only move along the claimed graph.
A fresh message delivered to user 2 reaches `delivered`; the send path's
unconditional `updateMessageStatus(SENT)` then moves it BACKWARD to
`sent` — a backward step other than `failed → pending`, and not an edge of
the graph (nor reachable along its edges from `delivered`). -/
theorem status_not_along_graph :
    (applyOps [(1, .applyDelivery 2)] (createMessage 1 5 0)).status =
      .delivered ∧
    (applyOps [(1, .applyDelivery 2), (2, .send)]
      (createMessage 1 5 0)).status = .sent ∧
    specGraphStep .delivered .sent = false ∧
    specGraphStep .read .delivered = false ∧
    (applyOps [(1, .applyRead 2)] (createMessage 1 5 0)).status = .read := by
  decide

/-- The per-operation status behaviour the code actually implements. -/
def actualStatusStep : Op → MessageStatus → MessageStatus → Prop
  | .send, _, s' => s' = .sent
  | .recordFailure _, _, s' => s' = .failed
  | .retry, s, s' => s' = if s = .failed then .pending else s
  | .applyDelivery _, s, s' =>
      s' = s ∨ ((s = .pending ∨ s = .sending) ∧ s' = .delivered)
  | .applyRead _, s, s' => s' = s ∨ s' = .read
  | .markAllRead _, s, s' => s' = s

/-- C4 amended: for every message and every operation, the status moves
exactly as the code's per-operation rules allow: `send` forces `sent` and
`recordFailure` forces `failed` from ANY current status (so backward moves
such as `delivered → sent` are possible), `retry` resets `failed` to
`pending` and leaves every other status unchanged, `applyDelivery` either
leaves the status unchanged or advances `pending`/`sending` to
`delivered`, `applyRead` either leaves the status unchanged or forces
`read` from any status, and `markAllRead` never changes the status. -/
theorem status_step_spec (t : Nat) (op : Op) (m : Message) :
    actualStatusStep op m.status (applyOp t op m).status := by
  cases op with
  | send => rfl
  | recordFailure r => rfl
  | retry =>
    show (retryMessage t m).1.status = _
    unfold retryMessage
    split_ifs with h
    · rfl
    · rfl
  | applyDelivery u =>
    show (markAsDelivered t u m).status = m.status ∨
      ((m.status = .pending ∨ m.status = .sending) ∧
        (markAsDelivered t u m).status = .delivered)
    unfold markAsDelivered
    split_ifs with h1 h2 h3
    · exact Or.inl rfl
    · exact Or.inl rfl
    · exact Or.inr ⟨h3, rfl⟩
    · exact Or.inl rfl
  | applyRead u =>
    show (markAsRead t u m).status = m.status ∨
      (markAsRead t u m).status = .read
    unfold markAsRead
    split_ifs <;> [exact Or.inl rfl; exact Or.inl rfl; exact Or.inr rfl]
  | markAllRead u =>
    show (markAllReadOne t u m).status = m.status
    unfold markAllReadOne
    split_ifs <;> rfl

/-- A conversation-7 store holding one unread `sent` message from user 1. -/
def sentUnreadStore : Store :=
  [(1, { createMessage 1 7 0 with status := .sent })]

/-- C5 counterexample: `markAllRead` does NOT apply `applyRead` semantics.
On a store with one unread message from user 1, `markAllRead(7, u2)`
counts the message as mutated and adds user 2 to `readBy`, but does NOT
add user 2 to `deliveredTo` and does NOT force the status to `read` — the
`updateMany` only performs `$addToSet: { readBy }`. -/
theorem markAllRead_not_applyRead_semantics :
    (markAllMessagesAsRead 9 7 2 sentUnreadStore).2 = 1 ∧
    (findById (markAllMessagesAsRead 9 7 2 sentUnreadStore).1 1).map
      Message.readBy = some [2] ∧
    (findById (markAllMessagesAsRead 9 7 2 sentUnreadStore).1 1).map
      Message.deliveredTo = some [] ∧
    (findById (markAllMessagesAsRead 9 7 2 sentUnreadStore).1 1).map
      Message.status = some .sent := by
  decide

theorem matchesUnread_eq_true {chatId : ChatId} {u : UserId} {m : Message} :
    matchesUnread chatId u m = true ↔
      m.chat = chatId ∧ m.sender ≠ u ∧ u ∉ m.readBy := by
  simp [matchesUnread, and_assoc]

theorem markAllReadOne_of_matches {chatId : ChatId} {u : UserId}
    {m : Message} (h : matchesUnread chatId u m = true) (t : Nat) :
    markAllReadOne t u m =
      { m with readBy := m.readBy ++ [u], updatedAt := t } := by
  rcases matchesUnread_eq_true.mp h with ⟨-, hs, hr⟩
  unfold markAllReadOne
  rw [if_pos ⟨hs, hr⟩]
  unfold addToSet
  rw [if_neg hr]

theorem matchesUnread_markAllReadOne (chatId : ChatId) (u : UserId)
    (m : Message) (t : Nat) :
    matchesUnread chatId u (markAllReadOne t u m) = false := by
  unfold markAllReadOne
  split_ifs with hg
  · simp [matchesUnread, mem_addToSet]
  · rw [not_and_or] at hg
    rcases hg with hg | hg
    · rw [not_not] at hg
      simp [matchesUnread, hg]
    · rw [not_not] at hg
      simp [matchesUnread, hg]

theorem zip_map_self {α β : Type} (f : α → β) :
    ∀ s : List α, s.zip (s.map f) = s.map (fun a => (a, f a))
  | [] => rfl
  | a :: rest => by
    show (a, f a) :: rest.zip (rest.map f) = _
    rw [zip_map_self f rest]; rfl

/-- The store entry transform performed by `markAllRead`'s `updateMany`. -/
def markAllEntry (t : Nat) (chatId : ChatId) (u : UserId)
    (p : MessageId × Message) : MessageId × Message :=
  if matchesUnread chatId u p.2 then (p.1, markAllReadOne t u p.2) else p

theorem markAllMessagesAsRead_fst (t : Nat) (chatId : ChatId) (u : UserId)
    (s : Store) :
    (markAllMessagesAsRead t chatId u s).1 = s.map (markAllEntry t chatId u) := by
  rfl

theorem matchesUnread_markAllEntry (t : Nat) (chatId : ChatId) (u : UserId)
    (p : MessageId × Message) :
    matchesUnread chatId u (markAllEntry t chatId u p).2 = false := by
  unfold markAllEntry
  split_ifs with h
  · exact matchesUnread_markAllReadOne chatId u p.2 t
  · simpa using h

/-- C5 amended: `markAllRead(conversationId, readerId)` mutates exactly the
messages of the conversation authored by someone other than the reader and
not yet containing the reader in `readBy`, but the mutation only appends
the reader to `readBy` — `deliveredTo`, the status and the receipt
timestamps are left untouched (NOT `applyRead` semantics).  The returned
count is the number of selected messages, and an immediately following
second call returns 0. -/
theorem markAllMessagesAsRead_spec (t tt : Nat) (chatId : ChatId)
    (u : UserId) (s : Store) :
    ((markAllMessagesAsRead t chatId u s).2 =
      (s.filter (fun p => matchesUnread chatId u p.2)).length) ∧
    ((markAllMessagesAsRead tt chatId u
        (markAllMessagesAsRead t chatId u s).1).2 = 0) ∧
    (∀ q ∈ s.zip (markAllMessagesAsRead t chatId u s).1,
      q.2.1 = q.1.1 ∧
      q.2.2.status = q.1.2.status ∧
      q.2.2.deliveredTo = q.1.2.deliveredTo ∧
      q.2.2.deliveredAt = q.1.2.deliveredAt ∧
      q.2.2.readAt = q.1.2.readAt ∧
      (matchesUnread chatId u q.1.2 = true →
        q.2.2.readBy = q.1.2.readBy ++ [u]) ∧
      (matchesUnread chatId u q.1.2 = false → q.2.2 = q.1.2)) := by
  refine ⟨rfl, ?_, ?_⟩
  · show (((markAllMessagesAsRead t chatId u s).1).filter
      (fun p => matchesUnread chatId u p.2)).length = 0
    rw [markAllMessagesAsRead_fst]
    induction s with
    | nil => rfl
    | cons p rest ih =>
      simpa [List.filter_cons, matchesUnread_markAllEntry] using ih
  · intro q hq
    rw [markAllMessagesAsRead_fst, zip_map_self] at hq
    rcases List.mem_map.mp hq with ⟨p, -, rfl⟩
    unfold markAllEntry
    split_ifs with h
    · rw [markAllReadOne_of_matches h]
      refine ⟨rfl, rfl, rfl, rfl, rfl, fun _ => rfl, fun hc => ?_⟩
      rw [h] at hc; exact absurd hc (by simp)
    · exact ⟨rfl, rfl, rfl, rfl, rfl, fun hc => absurd hc h, fun _ => rfl⟩

/-- Five unread messages from user 1 in conversation 7 (Scenario C). -/
def fiveUnreadStore : Store :=
  [(1, createMessage 1 7 0), (2, createMessage 1 7 1),
   (3, createMessage 1 7 2), (4, createMessage 1 7 3),
   (5, createMessage 1 7 4)]

/-- C5 witness: on 5 unread messages the call returns 5 and a second call
returns 0; the mutation leaves status and `deliveredTo` untouched. -/
theorem markAllMessagesAsRead_spec_witness :
    (markAllMessagesAsRead 10 7 2 fiveUnreadStore).2 = 5 ∧
    (markAllMessagesAsRead 11 7 2
      (markAllMessagesAsRead 10 7 2 fiveUnreadStore).1).2 = 0 ∧
    ((fiveUnreadStore.zip
        (markAllMessagesAsRead 10 7 2 fiveUnreadStore).1).head?.map
      (fun q => (q.2.2.status, q.2.2.deliveredTo, q.2.2.readBy))) =
      some (.pending, [], [2]) := by
  have h := markAllMessagesAsRead_spec 10 11 7 2 fiveUnreadStore
  exact ⟨by rw [h.1]; decide, h.2.1, by decide⟩

/-- Scenario A store, `sent` variant: message 1 from user 1 in
conversation 10, status `sent`, no receipts, created at the sweep time. -/
def sentSweepStore : Store :=
  [(1, { createMessage 1 10 86400000 with status := .sent })]

/-- Scenario A store, `pending` variant. -/
def pendingSweepStore : Store :=
  [(1, createMessage 1 10 86400000)]

/-- C6 counterexample: in Scenario A with `status(m1)=sent`, the sweep on
u2's connect puts u2 into `deliveredTo` but the status stays `sent`, not
`delivered` — `markAsDelivered` advances the status only from
`pending`/`sending`. -/
theorem sweeper_leaves_sent_status :
    (findById (markPendingMessagesAsDelivered 86400000 2 [10]
      sentSweepStore).1 1).map Message.deliveredTo = some [2] ∧
    (findById (markPendingMessagesAsDelivered 86400000 2 [10]
      sentSweepStore).1 1).map Message.status = some .sent := by
  decide

/-- C6 amended: the sweeper selects only messages in the user's
conversations, authored by someone else, not yet containing the user in
`deliveredTo`, with status `sent` or `pending`, inside the 24-hour window,
and at most 50 of them; each selected message gets `applyDelivery`
semantics.  In Scenario A the result is `deliveredTo(m1)={u2}` and a
`message-status-update` emission addressed to `u1` reaching u1's live
connections, but `status(m1)=delivered` only holds when the prior status
was `pending` (or `sending`); a `sent` message keeps status `sent`. -/
theorem sweeper_spec (now : Nat) (userId : UserId) (userChats : List ChatId)
    (s : Store) :
    ((sweepTargets now userId userChats s).length ≤ sweepLimit) ∧
    (∀ mid ∈ sweepTargets now userId userChats s,
      ∃ p ∈ s, p.1 = mid ∧ p.2.chat ∈ userChats ∧ p.2.sender ≠ userId ∧
        userId ∉ p.2.deliveredTo ∧
        (p.2.status = .sent ∨ p.2.status = .pending) ∧
        now - sweepWindow ≤ p.2.createdAt) ∧
    ((findById (markPendingMessagesAsDelivered 86400000 2 [10]
        pendingSweepStore).1 1).map Message.deliveredTo = some [2] ∧
      (findById (markPendingMessagesAsDelivered 86400000 2 [10]
        pendingSweepStore).1 1).map Message.status = some .delivered ∧
      (markPendingMessagesAsDelivered 86400000 2 [10]
        pendingSweepStore).2 = [(1, 1)] ∧
      emitToUser { sockets := [⟨9, 1⟩], rooms := [] } 1 = [9]) ∧
    ((findById (markPendingMessagesAsDelivered 86400000 2 [10]
        sentSweepStore).1 1).map Message.deliveredTo = some [2] ∧
      (findById (markPendingMessagesAsDelivered 86400000 2 [10]
        sentSweepStore).1 1).map Message.status = some .sent) := by
  refine ⟨List.length_take_le _ _, ?_, by decide, by decide⟩
  intro mid hmid
  have hmem := List.mem_of_mem_take hmid
  rcases List.mem_map.mp hmem with ⟨p, hp, rfl⟩
  have hfil := List.of_mem_filter hp
  have hps := List.mem_of_mem_filter hp
  refine ⟨p, hps, rfl, ?_⟩
  unfold sweepFilter at hfil
  simp only [Bool.and_eq_true, decide_eq_true_eq, Bool.or_eq_true] at hfil
  exact ⟨hfil.1.1.1.1, hfil.1.1.1.2, hfil.1.1.2, hfil.1.2, hfil.2⟩

/-- C6 witness: the selection-soundness part instantiated on the concrete
Scenario A store — message 1 is a sweep target for user 2. -/
theorem sweeper_spec_witness :
    ∃ p ∈ pendingSweepStore, p.1 = 1 ∧ p.2.chat ∈ [10] ∧ p.2.sender ≠ 2 ∧
      2 ∉ p.2.deliveredTo ∧ (p.2.status = .sent ∨ p.2.status = .pending) ∧
      86400000 - sweepWindow ≤ p.2.createdAt :=
  (sweeper_spec 86400000 2 [10] pendingSweepStore).2.1 1 (by decide)

theorem find_map_upd_of_any {β : Type} (u : Nat) (b : β) :
    ∀ l : List (Nat × β), l.any (fun p => p.1 = u) = true →
      (l.map (fun p => if p.1 = u then (p.1, b) else p)).find?
        (fun p => p.1 = u) = some (u, b)
  | [], h => by simp at h
  | p :: rest, h => by
    by_cases hp : p.1 = u
    · rw [List.map_cons, if_pos hp,
        List.find?_cons_of_pos _ (by simpa using hp), hp]
    · rw [List.map_cons, if_neg hp,
        List.find?_cons_of_neg _ (by simpa using hp)]
      refine find_map_upd_of_any u b rest ?_
      simpa [hp] using h

theorem find_append_single_of_not_any {β : Type} (u : Nat) (b : β) :
    ∀ l : List (Nat × β), l.any (fun p => p.1 = u) = false →
      (l ++ [(u, b)]).find? (fun p => p.1 = u) = some (u, b)
  | [], _ => by simp
  | p :: rest, h => by
    have hp : ¬p.1 = u := by
      intro hc
      simp [hc] at h
    rw [List.cons_append, List.find?_cons_of_neg _ (by simpa using hp)]
    refine find_append_single_of_not_any u b rest ?_
    simpa [hp] using h

theorem getEntry_setEntry_self {β : Type} (dflt b : β) (u : Nat)
    (l : List (Nat × β)) : getEntry dflt (setEntry l u b) u = b := by
  unfold setEntry getEntry
  split_ifs with h
  · rw [find_map_upd_of_any u b l h]; rfl
  · rw [find_append_single_of_not_any u b l
      (by rwa [Bool.not_eq_true] at h)]
    rfl

theorem find_map_upd_ne {β : Type} (u : Nat) (b : β) (v : Nat)
    (hvu : v ≠ u) :
    ∀ l : List (Nat × β),
      (l.map (fun p => if p.1 = u then (p.1, b) else p)).find?
        (fun p => p.1 = v) = l.find? (fun p => p.1 = v)
  | [] => rfl
  | p :: rest => by
    by_cases hp : p.1 = u
    · have hv : ¬p.1 = v := fun hc => hvu (hc ▸ hp)
      rw [List.map_cons, if_pos hp,
        List.find?_cons_of_neg _ (by simpa using hv),
        List.find?_cons_of_neg _ (by simpa using hv)]
      exact find_map_upd_ne u b v hvu rest
    · by_cases hv : p.1 = v
      · rw [List.map_cons, if_neg hp,
          List.find?_cons_of_pos _ (by simpa using hv),
          List.find?_cons_of_pos _ (by simpa using hv)]
      · rw [List.map_cons, if_neg hp,
          List.find?_cons_of_neg _ (by simpa using hv),
          List.find?_cons_of_neg _ (by simpa using hv)]
        exact find_map_upd_ne u b v hvu rest

theorem find_append_single_ne {β : Type} (u : Nat) (b : β) (v : Nat)
    (hvu : v ≠ u) :
    ∀ l : List (Nat × β),
      (l ++ [(u, b)]).find? (fun p => p.1 = v) = l.find? (fun p => p.1 = v)
  | [] => by
    rw [List.nil_append,
      List.find?_cons_of_neg _ (by simpa using fun hc => hvu hc.symm)]
  | p :: rest => by
    by_cases hv : p.1 = v
    · rw [List.cons_append,
        List.find?_cons_of_pos _ (by simpa using hv),
        List.find?_cons_of_pos _ (by simpa using hv)]
    · rw [List.cons_append,
        List.find?_cons_of_neg _ (by simpa using hv),
        List.find?_cons_of_neg _ (by simpa using hv)]
      exact find_append_single_ne u b v hvu rest

theorem getEntry_setEntry_ne {β : Type} (dflt b : β) (u v : Nat)
    (hvu : v ≠ u) (l : List (Nat × β)) :
    getEntry dflt (setEntry l u b) v = getEntry dflt l v := by
  unfold setEntry getEntry
  split_ifs with h
  · rw [find_map_upd_ne u b v hvu l]
  · rw [find_append_single_ne u b v hvu l]

/-- User 7 with two simultaneous live connections (ids 1 and 2). -/
def twoConnState : PresenceState :=
  connectUser 7 2 (connectUser 7 1 { conns := [], onlineStatus := [] })

/-- C7 counterexample: after one of user 7's two connections disconnects,
a live connection of user 7 remains open, yet `isOnline` is `false` — the
disconnect handler sets the user's `status` to `false` unconditionally,
with no check for other live connections of the same user. -/
theorem presence_false_while_connection_remains :
    (disconnectUser 1 twoConnState).conns = [⟨2, 7⟩] ∧
    isOnline (disconnectUser 1 twoConnState) 7 = false := by
  decide

/-- C7 amended: `isOnline(u)` is `true` after any connect of `u`, and
`false` after ANY disconnect of one of `u`'s connections — even when
another live connection of `u` remains open.  Presence is the per-user
`status` boolean written on each connect/disconnect, not a function of the
live-connection count. -/
theorem presence_spec :
    (∀ (u : UserId) (sid : Nat) (st : PresenceState),
      isOnline (connectUser u sid st) u = true) ∧
    (∀ (sid : Nat) (st : PresenceState) (c : SocketConn),
      st.conns.find? (fun x => x.sockId = sid) = some c →
      isOnline (disconnectUser sid st) c.userId = false) := by
  constructor
  · intro u sid st
    show getEntry false (setEntry st.onlineStatus u true) u = true
    exact getEntry_setEntry_self false true u st.onlineStatus
  · intro sid st c hfind
    show getEntry false (disconnectUser sid st).onlineStatus c.userId = false
    unfold disconnectUser
    rw [hfind]
    exact getEntry_setEntry_self false false c.userId st.onlineStatus

/-- C7 witness: the amended behaviour on the concrete two-connection
state — connect reports online, and the partial disconnect reports
offline. -/
theorem presence_spec_witness :
    isOnline (connectUser 7 2 (connectUser 7 1 ⟨[], []⟩)) 7 = true ∧
    isOnline (disconnectUser 1 twoConnState) 7 = false := by
  refine ⟨presence_spec.1 7 2 (connectUser 7 1 ⟨[], []⟩), ?_⟩
  exact presence_spec.2 1 twoConnState ⟨1, 7⟩ (by decide)

/-- The conversation-event fallback the spec claims (stated from the
spec's words, for comparison with `emitSocketEvent`): on an empty room,
resolve each conversation participant through the presence index and
deliver to every live connection of every non-sender participant. -/
def claimedConversationEmit (io : IoState) (roomId : Nat)
    (participants : List UserId) (senderId : UserId) : List Nat :=
  let members := roomMembers io roomId
  if members.length = 0 then
    (io.sockets.filter (fun s =>
      decide (s.userId ∈ participants) && decide (s.userId ≠ senderId))).map
      (·.sockId)
  else members

/-- An io state where user 2 is online (socket 1) but no connection is
subscribed to any room. -/
def loneSocketIo : IoState := { sockets := [⟨1, 2⟩], rooms := [] }

/-- C8 counterexample: a conversation-addressed event to conversation 100
(participants 1 and 2, sender 1) with zero subscribed connections reaches
NOBODY — the code's fallback emits only to sockets whose owning user id
equals the room id, it never resolves the conversation's participants —
while the claimed fallback would reach user 2's live connection. -/
theorem emit_fallback_misses_online_participant :
    emitSocketEvent loneSocketIo 100 = [] ∧
    claimedConversationEmit loneSocketIo 100 [1, 2] 1 = [1] := by
  decide

/-- C8 amended: when at least one connection is subscribed to the room the
event is delivered to exactly those connections; when zero are subscribed
the fallback delivers to exactly the live connections whose owning user id
equals the room id (useful only for user-addressed rooms) — conversation
participants are NOT resolved by the router (a participant-resolution
fallback exists only in the send-message controller for the
message-received event). -/
theorem emitSocketEvent_spec (io : IoState) (roomId : Nat) :
    (roomMembers io roomId ≠ [] →
      emitSocketEvent io roomId = roomMembers io roomId) ∧
    (roomMembers io roomId = [] →
      ∀ sid, sid ∈ emitSocketEvent io roomId ↔
        ∃ c ∈ io.sockets, c.sockId = sid ∧ c.userId = roomId) := by
  constructor
  · intro h
    unfold emitSocketEvent
    rw [if_neg (fun hlen => h (List.length_eq_zero.mp hlen))]
  · intro h sid
    unfold emitSocketEvent
    rw [if_pos (by rw [h]; rfl)]
    simp only [List.mem_map, List.mem_filter, decide_eq_true_eq]
    constructor
    · rintro ⟨c, ⟨hc, hu⟩, rfl⟩
      exact ⟨c, hc, rfl, hu⟩
    · rintro ⟨c, hc, rfl, hu⟩
      exact ⟨c, ⟨hc, hu⟩, rfl⟩

/-- C8 witness: the fast path on a subscribed room, and the fallback
characterization at the concrete empty-room state. -/
theorem emitSocketEvent_spec_witness :
    emitSocketEvent { sockets := [⟨1, 2⟩], rooms := [(100, [3])] } 100 =
      [3] ∧
    (1 ∈ emitSocketEvent loneSocketIo 2 ↔
      ∃ c ∈ loneSocketIo.sockets, c.sockId = 1 ∧ c.userId = 2) := by
  refine ⟨?_, (emitSocketEvent_spec loneSocketIo 2).2 (by decide) 1⟩
  exact (emitSocketEvent_spec { sockets := [⟨1, 2⟩], rooms := [(100, [3])] }
    100).1 (by decide)

/-- C9: a delivery or read receipt naming an unknown message id is dropped
with only a "not found" log outcome, never an error raised to the
transport, and leaves the message store unchanged; a user-addressed fanout
that resolves to no live connection delivers to nobody and does not
raise. -/
theorem unknown_receipts_and_misses_are_quiet (s : Store) (mid : MessageId)
    (t u : Nat) (io : IoState) (userId : UserId)
    (hmid : findById s mid = none)
    (hio : ∀ c ∈ io.sockets, c.userId ≠ userId) :
    storeMarkAsDelivered t mid u s = (s, .notFoundLogged) ∧
    storeMarkAsRead t mid u s = (s, .notFoundLogged) ∧
    (storeMarkAsDelivered t mid u s).2 ≠ .errorRaised ∧
    (storeMarkAsRead t mid u s).2 ≠ .errorRaised ∧
    emitToUser io userId = [] := by
  have hd : storeMarkAsDelivered t mid u s = (s, .notFoundLogged) := by
    unfold storeMarkAsDelivered
    rw [hmid]
  have hr : storeMarkAsRead t mid u s = (s, .notFoundLogged) := by
    unfold storeMarkAsRead
    rw [hmid]
  refine ⟨hd, hr, ?_, ?_, ?_⟩
  · rw [hd]; simp
  · rw [hr]; simp
  · unfold emitToUser
    rw [List.filter_eq_nil_iff.mpr (fun c hc => by simpa using hio c hc)]
    rfl

/-- C9 witness: an unknown message id against a one-message store, and a
fanout to a user with no live connection. -/
theorem unknown_receipts_and_misses_are_quiet_witness :
    storeMarkAsDelivered 5 99 2 sentUnreadStore =
      (sentUnreadStore, .notFoundLogged) ∧
    storeMarkAsRead 5 99 2 sentUnreadStore =
      (sentUnreadStore, .notFoundLogged) ∧
    (storeMarkAsDelivered 5 99 2 sentUnreadStore).2 ≠ .errorRaised ∧
    (storeMarkAsRead 5 99 2 sentUnreadStore).2 ≠ .errorRaised ∧
    emitToUser loneSocketIo 5 = [] :=
  unknown_receipts_and_misses_are_quiet sentUnreadStore 99 5 2 loneSocketIo 5
    (by decide) (by decide)

theorem getCount_setCount_self (l : List (UserId × Nat)) (u : UserId)
    (n : Nat) : getCount (setCount l u n) u = n :=
  getEntry_setEntry_self 0 n u l

theorem getCount_setCount_ne {l : List (UserId × Nat)} {u v : UserId}
    (h : v ≠ u) (n : Nat) : getCount (setCount l u n) v = getCount l v :=
  getEntry_setEntry_ne 0 n u v h l

theorem unread_foldl_not_mem (senderId p : UserId) :
    ∀ (ps : List UserId) (acc : List (UserId × Nat)), p ∉ ps →
      getCount (ps.foldl (fun acc q =>
        if q = senderId then setCount acc q 0
        else setCount acc q (getCount acc q + 1)) acc) p = getCount acc p
  | [], _, _ => rfl
  | q :: rest, acc, hp => by
    have hqp : p ≠ q := fun hc => hp (hc ▸ List.mem_cons_self q rest)
    rw [List.foldl_cons,
      unread_foldl_not_mem senderId p rest _
        (fun hc => hp (List.mem_cons_of_mem q hc))]
    split_ifs with h
    · exact getCount_setCount_ne hqp 0
    · exact getCount_setCount_ne hqp _

theorem unread_foldl_mem (senderId p : UserId) :
    ∀ (ps : List UserId) (acc : List (UserId × Nat)), ps.Nodup → p ∈ ps →
      getCount (ps.foldl (fun acc q =>
        if q = senderId then setCount acc q 0
        else setCount acc q (getCount acc q + 1)) acc) p =
        if p = senderId then 0 else getCount acc p + 1
  | [], _, _, hm => absurd hm (List.not_mem_nil p)
  | q :: rest, acc, hnd, hm => by
    have hq : q ∉ rest := (List.nodup_cons.mp hnd).1
    rw [List.foldl_cons]
    rcases List.mem_cons.mp hm with rfl | hp
    · rw [unread_foldl_not_mem senderId p rest _ hq]
      split_ifs with h
      · exact getCount_setCount_self acc p 0
      · exact getCount_setCount_self acc p _
    · have hpq : p ≠ q := fun hc => hq (hc ▸ hp)
      rw [unread_foldl_mem senderId p rest _ (List.nodup_cons.mp hnd).2 hp]
      split_ifs with h hqs
      · rfl
      · rw [getCount_setCount_ne hpq 0]
      · rw [getCount_setCount_ne hpq _]

/-- C10: the conversation-ledger update on a new message increments the
unread counter of every participant other than the sender by exactly one,
and resets the sender's own unread counter to 0 even when it was non-zero
before the send. -/
theorem unreadCounters_on_new_message (c : ChatDoc) (senderId : UserId)
    (hnd : c.participants.Nodup) :
    (∀ p ∈ c.participants, p ≠ senderId →
      getCount (updateConversationOnNewMessage senderId c).unreadCount p =
        getCount c.unreadCount p + 1) ∧
    (senderId ∈ c.participants →
      getCount (updateConversationOnNewMessage senderId c).unreadCount
        senderId = 0) := by
  constructor
  · intro p hp hps
    show getCount (c.participants.foldl _ c.unreadCount) p = _
    rw [unread_foldl_mem senderId p c.participants c.unreadCount hnd hp,
      if_neg hps]
  · intro hs
    show getCount (c.participants.foldl _ c.unreadCount) senderId = _
    rw [unread_foldl_mem senderId senderId c.participants c.unreadCount hnd hs,
      if_pos rfl]

/-- Conversation with participants 1, 2, 3; the sender (user 1) already
has a non-zero unread counter and user 3 has no counter entry yet. -/
def demoChat : ChatDoc :=
  { participants := [1, 2, 3], unreadCount := [(1, 4), (2, 0)] }

/-- C10 witness: user 1 sends into `demoChat`; users 2 and 3 are
incremented by one and the sender's stale counter 4 is reset to 0. -/
theorem unreadCounters_on_new_message_witness :
    getCount demoChat.unreadCount 1 = 4 ∧
    getCount (updateConversationOnNewMessage 1 demoChat).unreadCount 2 =
      getCount demoChat.unreadCount 2 + 1 ∧
    getCount (updateConversationOnNewMessage 1 demoChat).unreadCount 3 =
      getCount demoChat.unreadCount 3 + 1 ∧
    getCount (updateConversationOnNewMessage 1 demoChat).unreadCount 1 = 0 := by
  have h := unreadCounters_on_new_message demoChat 1 (by decide)
  exact ⟨by decide, h.1 2 (by decide) (by decide),
    h.1 3 (by decide) (by decide), h.2 (by decide)⟩

end ChatApp
